import Mathlib

/-!
Shallow embedding of the snake game core from `src/main.rs`.

Conventions of the embedding:
* `u16` values become `Nat`.  The Rust arithmetic hazards are made explicit:
  a remainder by zero (`(y + 1) % *rows` with `rows == 0`) and an unsigned
  subtraction underflow (`*rows - 1` with `rows == 0`) panic in Rust, and the
  embedding returns `none` there.  Under the in-bounds hypotheses used below
  (`x < cols ≤ 2^16`, …) no `u16` addition can overflow, so plain `Nat`
  arithmetic agrees with the Rust `u16` arithmetic on every reachable input.
* A Rust panic or `std::process::exit` inside a pure computation is modelled
  by an outer `Option`: `none` means the computation aborts.  The value
  `Snake::print_body` returns on the happy path is `StepResult.ok`; the
  self-collision game-over path (print message, restore terminal, exit) is
  `StepResult.gameOver b` where `b` is the body exactly as it was left.
* The random draw of `rng.random_range(0..len)` is passed in as an index
  `idx`; every real execution satisfies `idx < len`, and an out-of-range
  index (in particular any index when the list is empty, where `random_range`
  panics) yields `none`.
* Rendering (`MoveTo`/`PrintStyledContent`) writes to the terminal only and
  touches no game state; it has no counterpart in the embedding.
-/

namespace Snake2

/-- `enum SnakeDirection` from the source. -/
inductive SnakeDirection where
  | Up
  | Down
  | Left
  | Right
deriving DecidableEq, Repr

/-- `struct SnakeBodyPoint { x: u16, y: u16 }` from the source. -/
structure SnakeBodyPoint where
  x : Nat
  y : Nat
deriving DecidableEq, Repr

/-- `struct Snake { direction, body }` from the source. -/
structure Snake where
  direction : SnakeDirection
  body : List SnakeBodyPoint
deriving DecidableEq, Repr

/-- The occupancy test the source uses twice:
`body.iter().any(|p| p.x == x && p.y == y)`. -/
def occupies (snake_body : List SnakeBodyPoint) (x y : Nat) : Bool :=
  snake_body.any (fun p => p.x == x && p.y == y)

/-- The `match self.direction` block of `Snake::print_body` (lines 50-71):
the new head coordinate, one cell in the current direction, wrapping at the
edges.  `none` models the Rust panics: remainder by zero for `Down`/`Right`
when the relevant dimension is `0`, and the `*rows - 1` / `*cols - 1`
underflow for `Up`/`Left` from coordinate `0` when the dimension is `0`. -/
def new_head (dir : SnakeDirection) (p : SnakeBodyPoint) (cols rows : Nat) :
    Option SnakeBodyPoint :=
  match dir with
  | .Up =>
      if p.y = 0 then
        if rows = 0 then none else some ⟨p.x, rows - 1⟩
      else
        some ⟨p.x, p.y - 1⟩
  | .Down =>
      if rows = 0 then none else some ⟨p.x, (p.y + 1) % rows⟩
  | .Left =>
      if p.x = 0 then
        if cols = 0 then none else some ⟨cols - 1, p.y⟩
      else
        some ⟨p.x - 1, p.y⟩
  | .Right =>
      if cols = 0 then none else some ⟨(p.x + 1) % cols, p.y⟩

/-- The enumeration loop of `generate_food` (lines 138-144): all board cells
`(x, y)` with `x` outer and `y` inner that the snake body does not occupy. -/
def available_positions (cols rows : Nat) (snake_body : List SnakeBodyPoint) :
    List (Nat × Nat) :=
  (List.range cols).flatMap (fun x =>
    ((List.range rows).filter (fun y => !occupies snake_body x y)).map
      (fun y => (x, y)))

/-- `generate_food` (lines 135-152).  The `snake_body.is_empty()` branch is
the `panic!("The game ended on perfect score")` guard; indexing
`available_positions[rng.random_range(0..len)]` with the draw `idx` panics
(`none`) when `idx` is out of range, in particular whenever the available
list is empty. -/
def generate_food (cols rows : Nat) (snake_body : List SnakeBodyPoint)
    (idx : Nat) : Option (Nat × Nat) :=
  let available := available_positions cols rows snake_body
  if snake_body.isEmpty then none
  else available.get? idx

/-- The growth test of `print_body` (lines 87-93): the new head landed on the
food. -/
def grows (nh : SnakeBodyPoint) (food_position : Option (Nat × Nat)) : Bool :=
  match food_position with
  | some fp => nh.x == fp.1 && nh.y == fp.2
  | none => false

/-- Outcome of one `Snake::print_body` call.  `gameOver b` carries the body
as the aborting call leaves it (unmodified); `ok body food` is the happy
path with the updated body and the `Ok(..)` food value. -/
inductive StepResult where
  | gameOver (body : List SnakeBodyPoint)
  | ok (body : List SnakeBodyPoint) (food : Option (Nat × Nat))
deriving DecidableEq, Repr

/-- `Snake::print_body` (lines 41-132) minus the terminal writes.
In order, as in the source: read `self.body[0]` (panic on an empty body),
compute the new head, check it against every existing segment and game-over
on a hit, insert the new head at index 0, pop the tail unless food was
eaten, and return the regenerated food (growth) or the incoming
`food_position` unchanged. -/
def print_body (s : Snake) (food_position : Option (Nat × Nat))
    (cols rows idx : Nat) : Option StepResult :=
  match s.body with
  | [] => none
  | h0 :: _ =>
    match new_head s.direction h0 cols rows with
    | none => none
    | some nh =>
      if occupies s.body nh.x nh.y then
        some (StepResult.gameOver s.body)
      else
        let body1 := nh :: s.body
        if grows nh food_position then
          (generate_food cols rows body1 idx).map
            (fun nf => StepResult.ok body1 (some nf))
        else
          some (StepResult.ok body1.dropLast food_position)

/-- The timer step of the game loop (lines 192-199): when `print_body`
returned `Some(nfp)`, decrement by 20 if the food changed and the timer is
above 50. -/
def timer_update (timer : Nat) (new_food_pos food_position : Option (Nat × Nat)) :
    Nat :=
  match new_food_pos with
  | some nfp => if some nfp ≠ food_position ∧ 50 < timer then timer - 20 else timer
  | none => timer

/-- The timer across a whole run: successive `(new_food_pos, food_position)`
pairs folded over the initial `let mut timer = 500` (line 175). -/
def run_timer (ticks : List (Option (Nat × Nat) × Option (Nat × Nat))) : Nat :=
  ticks.foldl (fun t p => timer_update t p.1 p.2) 500

/-- The arrow-key handling of the game loop (lines 221-264) once the game
has started: each requested direction is installed unless the current
direction is its exact reverse. -/
def apply_arrow (current key : SnakeDirection) : SnakeDirection :=
  match key with
  | .Left => if current = .Right then current else .Left
  | .Right => if current = .Left then current else .Right
  | .Up => if current = .Down then current else .Up
  | .Down => if current = .Up then current else .Down

/-- The reverse of a direction, used to state the reversal-rejection claim. -/
def opposite : SnakeDirection → SnakeDirection
  | .Up => .Down
  | .Down => .Up
  | .Left => .Right
  | .Right => .Left

/-- Whether the snake body occupies every cell of the board. -/
def covers_board (cols rows : Nat) (snake_body : List SnakeBodyPoint) : Bool :=
  (List.range cols).all (fun x =>
    (List.range rows).all (fun y => occupies snake_body x y))

/-! ## Helper lemmas shared by several claims -/

/-- Unfolding `print_body` on a non-empty body when the new head does not
collide with the existing body. -/
lemma print_body_no_collision (dir : SnakeDirection) (h0 : SnakeBodyPoint)
    (t : List SnakeBodyPoint) (fp : Option (Nat × Nat)) (cols rows idx : Nat)
    (nh : SnakeBodyPoint)
    (hnh : new_head dir h0 cols rows = some nh)
    (hnc : occupies (h0 :: t) nh.x nh.y = false) :
    print_body ⟨dir, h0 :: t⟩ fp cols rows idx =
      (if grows nh fp then
        (generate_food cols rows (nh :: h0 :: t) idx).map
          (fun nf => StepResult.ok (nh :: h0 :: t) (some nf))
      else
        some (StepResult.ok ((nh :: h0 :: t).dropLast) fp)) := by
  simp [print_body, hnh, hnc]

/-- A cell in the available list is not occupied by the snake body (and lies
on the board). -/
lemma mem_available_positions (cols rows : Nat) (snake_body : List SnakeBodyPoint)
    (p : Nat × Nat) (hp : p ∈ available_positions cols rows snake_body) :
    occupies snake_body p.1 p.2 = false ∧ p.1 < cols ∧ p.2 < rows := by
  unfold available_positions at hp
  simp only [List.mem_flatMap, List.mem_map, List.mem_filter,
    List.mem_range] at hp
  obtain ⟨x, hx, y, ⟨hy, hfree⟩, hxy⟩ := hp
  subst hxy
  refine ⟨?_, hx, hy⟩
  simpa using hfree

/-- A successful food generation returns a member of the available list. -/
lemma generate_food_mem (cols rows idx : Nat)
    (snake_body : List SnakeBodyPoint) (nf : Nat × Nat)
    (h : generate_food cols rows snake_body idx = some nf) :
    nf ∈ available_positions cols rows snake_body := by
  unfold generate_food at h
  by_cases he : snake_body.isEmpty
  · simp [he] at h
  · rw [if_neg he] at h
    exact List.get?_mem h

/-- The growth test succeeds exactly when the food sits on the new head. -/
lemma grows_iff (nh : SnakeBodyPoint) (fp : Option (Nat × Nat)) :
    grows nh fp = true ↔ fp = some (nh.x, nh.y) := by
  cases fp with
  | none => simp [grows]
  | some q =>
    cases q with
    | mk a b =>
      simp only [grows, Bool.and_eq_true, beq_iff_eq, Option.some.injEq,
        Prod.mk.injEq]
      constructor
      · rintro ⟨h1, h2⟩; exact ⟨h1.symm, h2.symm⟩
      · rintro ⟨h1, h2⟩; exact ⟨h1.symm, h2.symm⟩

/-- A point of the body makes the occupancy test succeed at its
coordinates. -/
lemma occupies_of_mem (snake_body : List SnakeBodyPoint) (p : SnakeBodyPoint)
    (hp : p ∈ snake_body) : occupies snake_body p.x p.y = true := by
  unfold occupies
  rw [List.any_eq_true]
  exact ⟨p, hp, by simp⟩

/-- One timer update keeps the timer at least 40 and divisible by 20. -/
lemma timer_update_bounds (t : Nat) (a b : Option (Nat × Nat))
    (h40 : 40 ≤ t) (h20 : 20 ∣ t) :
    40 ≤ timer_update t a b ∧ 20 ∣ timer_update t a b := by
  cases a with
  | none => exact ⟨h40, h20⟩
  | some nfp =>
    simp only [timer_update]
    by_cases h : some nfp ≠ b ∧ 50 < t
    · obtain ⟨k, hk⟩ := h20
      rw [if_pos h]
      exact ⟨by omega, ⟨k - 1, by omega⟩⟩
    · rw [if_neg h]
      exact ⟨h40, h20⟩

/-! ## Claim theorems -/

/-- C1: when the freshly computed head coordinate already lies on the body
(the tail included, since the check precedes any insertion or removal), the
step ends in game over — modelled by `StepResult.gameOver`, the branch that
prints the game-over message, restores the terminal and exits the process —
and the body it leaves behind is exactly the body it was given. -/
theorem step_self_collision_game_over
    (s : Snake) (h0 : SnakeBodyPoint) (t : List SnakeBodyPoint)
    (fp : Option (Nat × Nat)) (cols rows idx : Nat) (nh : SnakeBodyPoint)
    (hb : s.body = h0 :: t)
    (hnh : new_head s.direction h0 cols rows = some nh)
    (hcol : occupies s.body nh.x nh.y = true) :
    print_body s fp cols rows idx = some (StepResult.gameOver s.body) := by
  obtain ⟨dir, body⟩ := s
  dsimp only at hb hnh hcol ⊢
  subst hb
  simp [print_body, hnh, hcol]

/-- Witness for C1: a snake at (0,0) pointing up on a 3×3 board whose tail
sits at (0,2); the wrapped new head (0,2) hits the tail segment that a
normal step would have removed, and the step game-overs with the body
untouched. -/
theorem step_self_collision_game_over_witness :
    print_body ⟨SnakeDirection.Up, [⟨0, 0⟩, ⟨0, 2⟩]⟩ none 3 3 0 =
      some (StepResult.gameOver [⟨0, 0⟩, ⟨0, 2⟩]) :=
  step_self_collision_game_over ⟨SnakeDirection.Up, [⟨0, 0⟩, ⟨0, 2⟩]⟩
    ⟨0, 0⟩ [⟨0, 2⟩] none 3 3 0 ⟨0, 2⟩ rfl (by decide) (by decide)

/-- C2: on a board at least 2×2 with the head in bounds, each of the four
edge moves wraps to the opposite edge, and each non-edge move changes the
relevant coordinate by exactly one. -/
theorem new_head_wraps (cols rows x y : Nat) (hc : 2 ≤ cols) (hr : 2 ≤ rows)
    (hx : x < cols) (hy : y < rows) :
    new_head .Up ⟨x, 0⟩ cols rows = some ⟨x, rows - 1⟩ ∧
    new_head .Down ⟨x, rows - 1⟩ cols rows = some ⟨x, 0⟩ ∧
    new_head .Left ⟨0, y⟩ cols rows = some ⟨cols - 1, y⟩ ∧
    new_head .Right ⟨cols - 1, y⟩ cols rows = some ⟨0, y⟩ ∧
    (y ≠ 0 → new_head .Up ⟨x, y⟩ cols rows = some ⟨x, y - 1⟩) ∧
    (y < rows - 1 → new_head .Down ⟨x, y⟩ cols rows = some ⟨x, y + 1⟩) ∧
    (x ≠ 0 → new_head .Left ⟨x, y⟩ cols rows = some ⟨x - 1, y⟩) ∧
    (x < cols - 1 → new_head .Right ⟨x, y⟩ cols rows = some ⟨x + 1, y⟩) := by
  have hc0 : ¬cols = 0 := by omega
  have hr0 : ¬rows = 0 := by omega
  refine ⟨?_, ?_, ?_, ?_, ?_, ?_, ?_, ?_⟩
  · simp [new_head, hr0]
  · have h1 : rows - 1 + 1 = rows := by omega
    simp [new_head, hr0, h1, Nat.mod_self]
  · simp [new_head, hc0]
  · have h1 : cols - 1 + 1 = cols := by omega
    simp [new_head, hc0, h1, Nat.mod_self]
  · intro h; simp [new_head, h]
  · intro h
    have h1 : (y + 1) % rows = y + 1 := Nat.mod_eq_of_lt (by omega)
    simp [new_head, hr0, h1]
  · intro h; simp [new_head, h]
  · intro h
    have h1 : (x + 1) % cols = x + 1 := Nat.mod_eq_of_lt (by omega)
    simp [new_head, hc0, h1]

/-- Witness for C2: on a 3×3 board, moving up from y = 0 wraps to y = 2, and
moving up from the interior cell (1,1) moves to (1,0). -/
theorem new_head_wraps_witness :
    new_head .Up ⟨1, 0⟩ 3 3 = some ⟨1, 2⟩ ∧
    new_head .Up ⟨1, 1⟩ 3 3 = some ⟨1, 0⟩ :=
  ⟨(new_head_wraps 3 3 1 1 (by decide) (by decide) (by decide) (by decide)).1,
   (new_head_wraps 3 3 1 1 (by decide) (by decide) (by decide)
      (by decide)).2.2.2.2.1 (by decide)⟩

/-- C7: a directional key equal to the exact opposite of the current
direction leaves the direction unchanged; any other directional key
installs the requested direction. -/
theorem arrow_reversal_rejected :
    ∀ current key : SnakeDirection,
      apply_arrow current key =
        if key = opposite current then current else key := by
  intro current key
  cases current <;> cases key <;> rfl

/-- C10: with both board dimensions at least 1 the new-head computation
never panics (no remainder by zero, no underflow); if the current head is in
bounds the new head is in bounds; and on a board whose height (resp. width)
is 0 the `Down` (resp. `Right`) computation panics. -/
theorem new_head_total_and_in_bounds :
    (∀ (dir : SnakeDirection) (p : SnakeBodyPoint) (cols rows : Nat),
       1 ≤ cols → 1 ≤ rows → new_head dir p cols rows ≠ none) ∧
    (∀ (dir : SnakeDirection) (p : SnakeBodyPoint) (cols rows : Nat),
       p.x < cols → p.y < rows →
       ∀ q, new_head dir p cols rows = some q → q.x < cols ∧ q.y < rows) ∧
    (∀ (p : SnakeBodyPoint) (cols : Nat),
       new_head SnakeDirection.Down p cols 0 = none) ∧
    (∀ (p : SnakeBodyPoint) (rows : Nat),
       new_head SnakeDirection.Right p 0 rows = none) := by
  refine ⟨?_, ?_, ?_, ?_⟩
  · intro dir p cols rows hc hr
    have hc0 : ¬cols = 0 := by omega
    have hr0 : ¬rows = 0 := by omega
    cases dir
    · by_cases h : p.y = 0 <;> simp [new_head, h, hr0]
    · simp [new_head, hr0]
    · by_cases h : p.x = 0 <;> simp [new_head, h, hc0]
    · simp [new_head, hc0]
  · intro dir p cols rows hx hy q hq
    have hc0 : ¬cols = 0 := by omega
    have hr0 : ¬rows = 0 := by omega
    cases dir
    · by_cases h : p.y = 0 <;>
        simp only [new_head, h, hr0, if_true, if_false, if_pos, if_neg,
          not_false_iff, Option.some.injEq, reduceIte] at hq <;>
        (cases hq; constructor <;> simp <;> omega)
    · simp only [new_head, hr0, reduceIte, Option.some.injEq] at hq
      cases hq
      exact ⟨hx, Nat.mod_lt _ (by omega)⟩
    · by_cases h : p.x = 0 <;>
        simp only [new_head, h, hc0, if_true, if_false, if_pos, if_neg,
          not_false_iff, Option.some.injEq, reduceIte] at hq <;>
        (cases hq; constructor <;> simp <;> omega)
    · simp only [new_head, hc0, reduceIte, Option.some.injEq] at hq
      cases hq
      exact ⟨Nat.mod_lt _ (by omega), hy⟩
  · intro p cols; simp [new_head]
  · intro p rows; simp [new_head]

/-- Witness for C10: the computation succeeds at (0,0) on a 3×3 board going
up, and its result (0,2) is in bounds. -/
theorem new_head_total_and_in_bounds_witness :
    new_head SnakeDirection.Up ⟨0, 0⟩ 3 3 ≠ none ∧
    ((⟨0, 2⟩ : SnakeBodyPoint).x < 3 ∧ (⟨0, 2⟩ : SnakeBodyPoint).y < 3) :=
  ⟨new_head_total_and_in_bounds.1 SnakeDirection.Up ⟨0, 0⟩ 3 3
      (by decide) (by decide),
   new_head_total_and_in_bounds.2.1 SnakeDirection.Up ⟨0, 0⟩ 3 3
      (by decide) (by decide) ⟨0, 2⟩ rfl⟩

/-- C3: a completed non-colliding step grows the body by exactly one segment
when the new head lands on the food, and keeps the length unchanged
otherwise (head inserted at index 0; tail popped only in the non-growth
case). -/
theorem step_body_length
    (s : Snake) (h0 : SnakeBodyPoint) (t : List SnakeBodyPoint)
    (fp : Option (Nat × Nat)) (cols rows idx : Nat) (nh : SnakeBodyPoint)
    (body' : List SnakeBodyPoint) (food' : Option (Nat × Nat))
    (hb : s.body = h0 :: t)
    (hnh : new_head s.direction h0 cols rows = some nh)
    (hnc : occupies s.body nh.x nh.y = false)
    (hres : print_body s fp cols rows idx = some (StepResult.ok body' food')) :
    body'.length =
      (if fp = some (nh.x, nh.y) then s.body.length + 1 else s.body.length) := by
  obtain ⟨dir, body⟩ := s
  dsimp only at hb hnh hnc hres ⊢
  subst hb
  rw [print_body_no_collision dir h0 t fp cols rows idx nh hnh hnc] at hres
  by_cases hg : grows nh fp = true
  · rw [if_pos hg] at hres
    rw [if_pos ((grows_iff nh fp).mp hg)]
    obtain ⟨nf, hnf, heq⟩ := Option.map_eq_some'.mp hres
    injection heq with hb2 hf2
    subst hb2
    simp
  · rw [if_neg hg] at hres
    rw [if_neg (fun hfp => hg ((grows_iff nh fp).mpr hfp))]
    injection hres with heq
    injection heq with hb2 hf2
    subst hb2
    simp [List.length_dropLast]

/-- Witness for C3: a length-1 snake at (0,0) on a 3×3 board steps right
onto the food at (1,0) and finishes with a length-2 body. -/
theorem step_body_length_witness :
    ([⟨1, 0⟩, ⟨0, 0⟩] : List SnakeBodyPoint).length =
      (if (some (1, 0) : Option (Nat × Nat)) =
          some ((⟨1, 0⟩ : SnakeBodyPoint).x, (⟨1, 0⟩ : SnakeBodyPoint).y) then
        ([⟨0, 0⟩] : List SnakeBodyPoint).length + 1
      else ([⟨0, 0⟩] : List SnakeBodyPoint).length) :=
  step_body_length ⟨SnakeDirection.Right, [⟨0, 0⟩]⟩ ⟨0, 0⟩ [] (some (1, 0))
    3 3 0 ⟨1, 0⟩ [⟨1, 0⟩, ⟨0, 0⟩] (some (0, 1)) rfl (by decide) (by decide)
    (by decide)

/-- C5: whenever a food generation succeeds, the returned cell is not
occupied by any segment of the snake body — for every possible random draw
`idx` — stated under the claim's hypothesis that the body does not cover
the whole board. -/
theorem generate_food_avoids_body (cols rows idx : Nat)
    (snake_body : List SnakeBodyPoint) (nf : Nat × Nat)
    (hncover : covers_board cols rows snake_body = false)
    (hgen : generate_food cols rows snake_body idx = some nf) :
    occupies snake_body nf.1 nf.2 = false :=
  (mem_available_positions cols rows snake_body nf
    (generate_food_mem cols rows idx snake_body nf hgen)).1

/-- Witness for C5: on a 2×2 board with the body occupying only (0,0),
draw 0 yields the cell (0,1), which the body does not occupy. -/
theorem generate_food_avoids_body_witness :
    occupies [⟨0, 0⟩] 0 1 = false :=
  generate_food_avoids_body 2 2 0 [⟨0, 0⟩] (0, 1) (by decide) (by decide)

/-- C6 counterexample: a step of a length-1 snake with no food present
returns `none` as the food value although the snake is nowhere near
covering the 3×3 board — refuting "returns none exactly when the snake
occupies literally every cell". -/
theorem step_none_food_counterexample :
    print_body ⟨SnakeDirection.Right, [⟨0, 0⟩]⟩ none 3 3 0 =
      some (StepResult.ok [⟨1, 0⟩] none) ∧
    covers_board 3 3 [⟨1, 0⟩] = false := by decide

/-- C6 amended: for a non-colliding step, the returned food value is `none`
exactly when the incoming food was `none`; and in the growth case with the
post-growth body covering the whole board (empty available list) the step
panics — `none` result of the embedding — inside food generation rather
than returning a `none` food value. -/
theorem step_food_none_iff
    (s : Snake) (h0 : SnakeBodyPoint) (t : List SnakeBodyPoint)
    (fp : Option (Nat × Nat)) (cols rows idx : Nat) (nh : SnakeBodyPoint)
    (hb : s.body = h0 :: t)
    (hnh : new_head s.direction h0 cols rows = some nh)
    (hnc : occupies s.body nh.x nh.y = false) :
    (∀ (body' : List SnakeBodyPoint) (food' : Option (Nat × Nat)),
       print_body s fp cols rows idx = some (StepResult.ok body' food') →
       (food' = none ↔ fp = none)) ∧
    (grows nh fp = true →
       available_positions cols rows (nh :: s.body) = [] →
       print_body s fp cols rows idx = none) := by
  obtain ⟨dir, body⟩ := s
  dsimp only at hb hnh hnc ⊢
  subst hb
  rw [print_body_no_collision dir h0 t fp cols rows idx nh hnh hnc]
  constructor
  · intro body' food' hres
    by_cases hg : grows nh fp = true
    · rw [if_pos hg] at hres
      obtain ⟨nf, hnf, heq⟩ := Option.map_eq_some'.mp hres
      injection heq with hb2 hf2
      subst hf2
      have hfp : fp = some (nh.x, nh.y) := (grows_iff nh fp).mp hg
      simp [hfp]
    · rw [if_neg hg] at hres
      injection hres with heq
      injection heq with hb2 hf2
      subst hf2
      rfl
  · intro hg hempty
    rw [if_pos hg]
    have hne : ¬(nh :: h0 :: t).isEmpty = true := by simp
    simp [generate_food, hempty, hne]

/-- Witness for C6 (amended): a 1×2 board, snake at (0,0) moving down onto
food at (0,1); after growth the body covers the board, the available list
is empty, and the step panics (`none`). -/
theorem step_food_none_iff_witness :
    print_body ⟨SnakeDirection.Down, [⟨0, 0⟩]⟩ (some (0, 1)) 1 2 0 = none :=
  (step_food_none_iff ⟨SnakeDirection.Down, [⟨0, 0⟩]⟩ ⟨0, 0⟩ []
    (some (0, 1)) 1 2 0 ⟨0, 1⟩ rfl (by decide) (by decide)).2
    (by decide) (by decide)

/-- C8: a step that completes normally preserves pairwise distinctness of
the body coordinates: the collision check guarantees the inserted head is
fresh, and popping the tail only removes a segment. -/
theorem step_preserves_nodup
    (s : Snake) (fp : Option (Nat × Nat)) (cols rows idx : Nat)
    (body' : List SnakeBodyPoint) (food' : Option (Nat × Nat))
    (hnd : s.body.Nodup)
    (hres : print_body s fp cols rows idx = some (StepResult.ok body' food')) :
    body'.Nodup := by
  obtain ⟨dir, body⟩ := s
  dsimp only at hnd hres
  cases body with
  | nil => simp [print_body] at hres
  | cons h0 t =>
    cases hnh : new_head dir h0 cols rows with
    | none => simp [print_body, hnh] at hres
    | some nh =>
      by_cases hocc : occupies (h0 :: t) nh.x nh.y = true
      · simp [print_body, hnh, hocc] at hres
      · have hnc : occupies (h0 :: t) nh.x nh.y = false := by
          simpa using hocc
        rw [print_body_no_collision dir h0 t fp cols rows idx nh hnh hnc]
          at hres
        have hnotmem : nh ∉ (h0 :: t) := fun hmem =>
          hocc (occupies_of_mem (h0 :: t) nh hmem)
        have hnodup1 : (nh :: h0 :: t).Nodup :=
          List.nodup_cons.mpr ⟨hnotmem, hnd⟩
        by_cases hg : grows nh fp = true
        · rw [if_pos hg] at hres
          obtain ⟨nf, hnf, heq⟩ := Option.map_eq_some'.mp hres
          injection heq with hb2 hf2
          subst hb2
          exact hnodup1
        · rw [if_neg hg] at hres
          injection hres with heq
          injection heq with hb2 hf2
          subst hb2
          exact hnodup1.sublist (List.dropLast_sublist _)

/-- Witness for C8: the length-1 snake at (0,0) steps right on a 3×3 board;
the resulting body [(1,0)] has pairwise distinct coordinates. -/
theorem step_preserves_nodup_witness :
    ([⟨1, 0⟩] : List SnakeBodyPoint).Nodup :=
  step_preserves_nodup ⟨SnakeDirection.Right, [⟨0, 0⟩]⟩ none 3 3 0
    [⟨1, 0⟩] none (by decide) (by decide)

/-- C9: on a consumption step (the incoming food sits on the new head), the
regenerated food returned by the step differs from the consumed food cell,
because the consumed cell is now the head of the body that regeneration
excludes; hence the loop's `Some(nfp) != food_position` guard holds and the
timer update of that tick is a single decrement of exactly 20 whenever the
timer is above 50. -/
theorem consumption_changes_food
    (s : Snake) (h0 : SnakeBodyPoint) (t : List SnakeBodyPoint)
    (cols rows idx : Nat) (nh : SnakeBodyPoint)
    (body' : List SnakeBodyPoint) (nf : Nat × Nat) (timer : Nat)
    (hb : s.body = h0 :: t)
    (hnh : new_head s.direction h0 cols rows = some nh)
    (hres : print_body s (some (nh.x, nh.y)) cols rows idx =
      some (StepResult.ok body' (some nf))) :
    nf ≠ (nh.x, nh.y) ∧
    timer_update timer (some nf) (some (nh.x, nh.y)) =
      (if 50 < timer then timer - 20 else timer) := by
  obtain ⟨dir, body⟩ := s
  dsimp only at hb hnh hres ⊢
  subst hb
  by_cases hocc : occupies (h0 :: t) nh.x nh.y = true
  · rw [step_self_collision_game_over ⟨dir, h0 :: t⟩ h0 t (some (nh.x, nh.y))
      cols rows idx nh rfl hnh hocc] at hres
    simp at hres
  · have hnc : occupies (h0 :: t) nh.x nh.y = false := by simpa using hocc
    rw [print_body_no_collision dir h0 t (some (nh.x, nh.y)) cols rows idx nh
      hnh hnc] at hres
    have hg : grows nh (some (nh.x, nh.y)) = true := by simp [grows]
    rw [if_pos hg] at hres
    obtain ⟨nf0, hnf0, heq⟩ := Option.map_eq_some'.mp hres
    injection heq with hb2 hf2
    injection hf2 with hf2
    subst hf2
    have hmem := generate_food_mem cols rows idx (nh :: h0 :: t) nf0 hnf0
    have hfree := (mem_available_positions cols rows (nh :: h0 :: t) nf0 hmem).1
    have hne : nf0 ≠ (nh.x, nh.y) := by
      intro hcontra
      have hhit : occupies (nh :: h0 :: t) nf0.1 nf0.2 = true := by
        rw [hcontra]
        exact occupies_of_mem (nh :: h0 :: t) nh (List.mem_cons_self _ _)
      rw [hhit] at hfree
      exact Bool.true_eq_false.mp hfree
    refine ⟨hne, ?_⟩
    have hne2 : some nf0 ≠ some (nh.x, nh.y) := by
      simpa using hne
    simp only [timer_update]
    by_cases ht : 50 < timer
    · rw [if_pos ⟨hne2, ht⟩, if_pos ht]
    · rw [if_neg (fun hc => ht hc.2), if_neg ht]

/-- Witness for C9: snake at (0,0) eats the food at (1,0) on a 3×3 board;
the regenerated food (0,1) differs from the consumed cell and the timer
drops from 500 to 480. -/
theorem consumption_changes_food_witness :
    ((0, 1) : Nat × Nat) ≠
      ((⟨1, 0⟩ : SnakeBodyPoint).x, (⟨1, 0⟩ : SnakeBodyPoint).y) ∧
    timer_update 500 (some (0, 1))
        (some ((⟨1, 0⟩ : SnakeBodyPoint).x, (⟨1, 0⟩ : SnakeBodyPoint).y)) =
      (if 50 < 500 then 500 - 20 else 500) :=
  consumption_changes_food ⟨SnakeDirection.Right, [⟨0, 0⟩]⟩ ⟨0, 0⟩ []
    3 3 0 ⟨1, 0⟩ [⟨1, 0⟩, ⟨0, 0⟩] (0, 1) 500 rfl (by decide) (by decide)

/-- C4 counterexample: after 23 consumption ticks from the initial 500ms
the timer reaches 40ms, strictly below the 50ms floor the claim states
(the guard `timer > 50` allows the decrement from 60 down to 40). -/
theorem run_timer_breaks_fifty :
    run_timer (List.replicate 23 (some (1, 1), some (0, 0))) = 40 ∧
    40 < 50 := by decide

/-- C4 amended: starting from 500ms the timer never drops below 40ms, over
every possible sequence of ticks; and on a tick whose new food differs
from the old one, the timer decreases by exactly 20 whenever it is above
50. -/
theorem timer_floor_forty :
    (∀ ticks : List (Option (Nat × Nat) × Option (Nat × Nat)),
       40 ≤ run_timer ticks) ∧
    (∀ (t : Nat) (nfp : Nat × Nat) (fp : Option (Nat × Nat)),
       some nfp ≠ fp → 50 < t → timer_update t (some nfp) fp = t - 20) := by
  constructor
  · have key : ∀ (ticks : List (Option (Nat × Nat) × Option (Nat × Nat)))
        (t : Nat), 40 ≤ t → 20 ∣ t →
        40 ≤ ticks.foldl (fun u p => timer_update u p.1 p.2) t := by
      intro ticks
      induction ticks with
      | nil => intro t h40 _; simpa using h40
      | cons a rest ih =>
        intro t h40 h20
        obtain ⟨h40', h20'⟩ := timer_update_bounds t a.1 a.2 h40 h20
        simpa using ih (timer_update t a.1 a.2) h40' h20'
    intro ticks
    exact key ticks 500 (by omega) ⟨25, rfl⟩
  · intro t nfp fp hne ht
    simp only [timer_update]
    rw [if_pos ⟨hne, ht⟩]

/-- Witness for C4 (amended): one consumption tick at 500ms with food moving
from (0,0) to (1,1) decrements the timer to 480ms. -/
theorem timer_floor_forty_witness :
    40 ≤ run_timer [] ∧
    timer_update 500 (some (1, 1)) (some (0, 0)) = 500 - 20 :=
  ⟨timer_floor_forty.1 [],
   timer_floor_forty.2 500 (1, 1) (some (0, 0)) (by decide) (by decide)⟩

end Snake2
